import Mathlib

/-!
Verification of the frame queuing and dispatch orchestration layer
(`src/Node.cpp`, `src/utility/CritSec.c`) of a Cyphal-over-CAN node.

The C++ code is shallowly embedded: the external protocol engine
(libcanard) and the allocator are opaque collaborators, so their calls
are modelled as injected functions and as events recorded in a trace.
Machine integers that cannot overflow on the considered inputs
(microsecond timestamps, sizes, identifiers) are modelled as `Nat`;
the status code returned by the engine push operation is an `Int`.
The injected time source `_micros_func` is modelled by the value it
returns during the considered call.
-/

/-- MTU of a classic CAN frame, libcanard constant CANARD_MTU_CAN_CLASSIC. -/
def CANARD_MTU_CAN_CLASSIC : Nat := 8

/-- MTU of a CAN FD frame, libcanard constant CANARD_MTU_CAN_FD. -/
def CANARD_MTU_CAN_FD : Nat := 64

/-- A raw CAN frame as handed to/by the node (libcanard `CanardFrame`):
extended identifier, declared payload size, and the payload bytes the
`payload` pointer points at. `payload_size` is a separate field, as in C,
and may disagree with `payload.length`. -/
structure CanardFrame where
  extended_can_id : Nat
  payload_size : Nat
  payload : List Nat
deriving DecidableEq, Repr

/-- One record of the bounded receive buffer. `Node.cpp` stores the tuple
`(extended_can_id, payload_size, payload, rx_timestamp_us)` where `payload`
is a fixed-size `std::array` (8 bytes for the classic variant, 64 for FD);
here the array contents are a `List Nat` whose length is the variant's
capacity. -/
structure RxQueueItem where
  extended_can_id : Nat
  payload_size : Nat
  payload : List Nat
  rx_timestamp_us : Nat
deriving DecidableEq, Repr

/-- An item of the engine-owned transmit queue (`CanardTxQueueItem`):
the absolute transmission deadline and the frame. -/
structure CanardTxQueueItem where
  tx_deadline_usec : Nat
  frame : CanardFrame
deriving DecidableEq, Repr

/-- A completed transfer as produced by `canardRxAccept`
(`CanardRxTransfer`); only the scratch-memory pointer matters to this
layer, modelled as an abstract token. -/
structure CanardRxTransfer where
  payload : Nat
deriving DecidableEq, Repr, BEq

/-- The out-parameters and status of one `canardRxAccept` call: the
`int8_t` status (`1` means a transfer completed), the completed transfer,
and the subscription's `user_reference` (abstract handler token). -/
structure AcceptResult where
  result : Int
  transfer : CanardRxTransfer
  subscription : Nat
deriving DecidableEq, Repr

/-- Modelled from the spec: the classes `CircularBufferCan` /
`CircularBufferCanFd` are not part of the given sources; §3/§4.1 describe
them as one fixed-capacity FIFO ring buffer of Frame Records, the two
variants differing only in payload-array size (carried here by the items
themselves). The overflow policy is an open question of the spec (§9);
it is modelled as drop-newest, and no claim proved below exercises it. -/
structure CircularBuffer (α : Type) where
  capacity : Nat
  data : List α
deriving DecidableEq, Repr

/-- Modelled from the spec: constant-time enqueue; when the buffer is
full the frame is dropped (policy fixed arbitrarily, §9 open question). -/
def CircularBuffer.enqueue {α : Type} (b : CircularBuffer α) (x : α) :
    CircularBuffer α :=
  if b.data.length < b.capacity then { b with data := b.data ++ [x] } else b

/-- Modelled from the spec: emptiness test used by the cooperative drain. -/
def CircularBuffer.isEmpty {α : Type} (b : CircularBuffer α) : Bool :=
  b.data.isEmpty

/-- Modelled from the spec: dequeue the oldest record; the C caller checks
`isEmpty` first, so the empty case is `none`. -/
def CircularBuffer.dequeue {α : Type} (b : CircularBuffer α) :
    Option (α × CircularBuffer α) :=
  match b.data with
  | [] => none
  | x :: xs => some (x, { b with data := xs })

/-- Effect of `std::array<uint8_t, cap> payload{}` (zero initialization)
followed by `memcpy(payload.data(), src, std::min(n, cap))`: the array
always holds exactly `cap` bytes, the copied prefix followed by the
remaining zero-initialized bytes. (Should `src` hold fewer than
`min n cap` bytes the C `memcpy` reads out of bounds; the model keeps
the zero initialization there.) -/
def copyPayload (cap : Nat) (src : List Nat) (n : Nat) : List Nat :=
  let copied := src.take (min n cap)
  copied ++ List.replicate (cap - copied.length) 0

/-- Payload-array capacity of the receive-buffer variant selected for a
given `_mtu_bytes`: 8 bytes for the classic branch, 64 for the FD one. -/
def payloadCapacity (mtu_bytes : Nat) : Nat :=
  if mtu_bytes = CANARD_MTU_CAN_CLASSIC then CANARD_MTU_CAN_CLASSIC
  else CANARD_MTU_CAN_FD

/-- The Frame Record built by `Node::onCanFrameReceived`: the classic
variant copies into an 8-byte array when `_mtu_bytes` equals the classic
MTU, the FD variant into a 64-byte array otherwise; in both branches the
stored `payload_size` is the frame's original `payload_size`. -/
def mkRxQueueItem (mtu_bytes : Nat) (frame : CanardFrame)
    (rx_timestamp_us : Nat) : RxQueueItem :=
  if mtu_bytes = CANARD_MTU_CAN_CLASSIC then
    { extended_can_id := frame.extended_can_id
      payload_size := frame.payload_size
      payload := copyPayload CANARD_MTU_CAN_CLASSIC frame.payload frame.payload_size
      rx_timestamp_us := rx_timestamp_us }
  else
    { extended_can_id := frame.extended_can_id
      payload_size := frame.payload_size
      payload := copyPayload CANARD_MTU_CAN_FD frame.payload frame.payload_size
      rx_timestamp_us := rx_timestamp_us }

/-- The `CanardFrame rx_frame` that `Node::processRxQueue` rebuilds from a
dequeued record before handing it to `processRxFrame`: identifier and
`payload_size` are taken from the record, `payload` points at the record's
fixed-size array. -/
def frameOfItem (item : RxQueueItem) : CanardFrame :=
  { extended_can_id := item.extended_can_id
    payload_size := item.payload_size
    payload := item.payload }

/-- The observable calls the receive path makes on its collaborators:
the `canardRxAccept` call, the handler invocation
`sub_ptr->onTransferReceived(transfer)`, and the
`memory_free(transfer.payload)` release. -/
inductive RxEvent
  | acceptCall (frame : CanardFrame) (ts : Nat)
  | transferReceived (subscription : Nat) (transfer : CanardRxTransfer)
  | memoryFreed (p : Nat)
deriving DecidableEq, Repr, BEq

/-- The observable calls the transmit drain makes: `popFreed` is a
`canardTxPop` immediately followed by `memory_free` (an item removed
without a transmission attempt on the first branch, or after one on the
second), `txCall` is an invocation of the caller-supplied transmit
function together with the value it returned. -/
inductive TxEvent
  | popFreed (item : CanardTxQueueItem)
  | txCall (frame : CanardFrame) (accepted : Bool)
deriving DecidableEq, Repr, BEq

/-- `Node::processRxFrame`: call `canardRxAccept`; if and only if it
returns `1`, invoke the subscription's reception callback and then free
the transfer's scratch memory. -/
def Node.processRxFrame (accept : CanardFrame → Nat → AcceptResult)
    (frame : CanardFrame) (rx_timestamp_us : Nat) : List RxEvent :=
  let r := accept frame rx_timestamp_us
  if r.result = 1 then
    [RxEvent.acceptCall frame rx_timestamp_us,
     RxEvent.transferReceived r.subscription r.transfer,
     RxEvent.memoryFreed r.transfer.payload]
  else
    [RxEvent.acceptCall frame rx_timestamp_us]

/-- The loop body of `Node::processRxQueue`, as a function of the
buffer's record list (head = oldest): while non-empty, dequeue one
record, rebuild the `CanardFrame`, and run `processRxFrame` on it with
the record's reception timestamp. Both MTU branches of the C++ loop
perform exactly this, differing only in the concrete buffer class. -/
def Node.processRxQueueGo (accept : CanardFrame → Nat → AcceptResult) :
    List RxQueueItem → List RxEvent
  | [] => []
  | item :: rest =>
      Node.processRxFrame accept (frameOfItem item) item.rx_timestamp_us
        ++ Node.processRxQueueGo accept rest

/-- `Node::processRxQueue` on the buffer: dequeues until `isEmpty`,
returning the drained buffer and the event trace. -/
def Node.processRxQueueRun (accept : CanardFrame → Nat → AcceptResult)
    (buf : CircularBuffer RxQueueItem) :
    CircularBuffer RxQueueItem × List RxEvent :=
  ({ buf with data := [] }, Node.processRxQueueGo accept buf.data)

/-- `Node::processTxQueue`: peek the head; if `tx_deadline_usec >
_micros_func()` pop and free it and continue; otherwise call the
transmit function, and on `true` pop, free and continue, on `false`
return at once. Returns the remaining queue and the event trace. -/
def Node.processTxQueue (tx_func : CanardFrame → Bool) (now : Nat) :
    List CanardTxQueueItem → List CanardTxQueueItem × List TxEvent
  | [] => ([], [])
  | item :: rest =>
      if now < item.tx_deadline_usec then
        let r := Node.processTxQueue tx_func now rest
        (r.1, TxEvent.popFreed item :: r.2)
      else if tx_func item.frame then
        let r := Node.processTxQueue tx_func now rest
        (r.1, TxEvent.txCall item.frame true :: TxEvent.popFreed item :: r.2)
      else
        (item :: rest, [TxEvent.txCall item.frame false])

/-- The two concrete receive-buffer classes the `Node` constructor can
allocate: `CircularBufferCan` (8-byte payload records) or
`CircularBufferCanFd` (64-byte payload records). -/
inductive RxBufferVariant
  | can
  | canFd
deriving DecidableEq, Repr

/-- The `_canard_rx_queue` member initializer of `Node::Node`:
`(_mtu_bytes == CANARD_MTU_CAN_CLASSIC) ? new CircularBufferCan(...) :
new CircularBufferCanFd(...)`. The condition reads the member
`_mtu_bytes`, not the constructor argument `mtu_bytes`; by the C++
member-initialization order implied by the initializer list,
`_canard_rx_queue` is initialized before `_mtu_bytes`, so the value read
is the member's indeterminate pre-initialization value, made explicit
here as `uninit_mtu_bytes`. The `mtu_bytes` argument is in scope at this
point of the constructor but unused by this initializer. -/
def Node.rxQueueVariant (uninit_mtu_bytes : Nat) (mtu_bytes : Nat) :
    RxBufferVariant :=
  if uninit_mtu_bytes = CANARD_MTU_CAN_CLASSIC then RxBufferVariant.can
  else
    have _ := mtu_bytes
    RxBufferVariant.canFd

/-- The `Node` state this layer owns, per the fields of `Node`:
`_mtu_bytes`, the node identifier written into `_canard_hdl.node_id`,
the bounded receive buffer `_canard_rx_queue`, the engine-owned transmit
queue `_canard_tx_queue`, and abstract tokens for the protocol-engine
handle `_canard_hdl` (which carries the subscription dispatch state) and
the `_o1heap_ins` allocator instance. -/
structure NodeState where
  mtu_bytes : Nat
  node_id : Nat
  rx_queue : CircularBuffer RxQueueItem
  tx_queue : List CanardTxQueueItem
  canard_hdl : Nat
  o1heap : Nat
deriving DecidableEq, Repr

/-- `Node::onCanFrameReceived`: read the reception timestamp from the
injected time source (`micros_val` is the value `_micros_func()`
returns), build the Frame Record for the node's MTU variant, and enqueue
it into the bounded receive buffer. Nothing else is touched. -/
def Node.onCanFrameReceived (st : NodeState) (micros_val : Nat)
    (frame : CanardFrame) : NodeState :=
  { st with
    rx_queue := st.rx_queue.enqueue (mkRxQueueItem st.mtu_bytes frame micros_val) }

/-- `Node::enqueue_transfer`: call `canardTxPush` with the absolute
deadline `_micros_func() + tx_timeout_usec`; the push operation of the
engine is the injected `push`, a function of the deadline it is given
(metadata and payload are fixed collaborator inputs and do not influence
what this layer computes). Returns the success flag `rc >= 0` together
with the deadline that was passed to the engine. -/
def Node.enqueue_transfer (push : Nat → Int) (micros_val : Nat)
    (tx_timeout_usec : Nat) : Bool × Nat :=
  let deadline := micros_val + tx_timeout_usec
  let rc := push deadline
  (decide (0 ≤ rc), deadline)

/-- One entry of the combined `spinSome` trace: an event of the receive
drain or an event of the transmit drain. -/
inductive Event
  | rx (e : RxEvent)
  | tx (e : TxEvent)
deriving DecidableEq, Repr, BEq

/-- `Node::spinSome`: `processRxQueue(); processTxQueue(tx_func);` —
the receive drain first, then the transmit drain, their event traces
concatenated in that order. -/
def Node.spinSome (accept : CanardFrame → Nat → AcceptResult)
    (tx_func : CanardFrame → Bool) (now : Nat) (st : NodeState) :
    NodeState × List Event :=
  let rxr := Node.processRxQueueRun accept st.rx_queue
  let txr := Node.processTxQueue tx_func now st.tx_queue
  ({ st with rx_queue := rxr.1, tx_queue := txr.1 },
   rxr.2.map Event.rx ++ txr.2.map Event.tx)

/-- The interrupt-controller state seen by `CritSec.c`: `primask` models
the Cortex-M PRIMASK bit (`true` = interrupts masked/disabled, so
interrupts are enabled exactly when `primask = false`), `irestore` the
single static `uint8_t irestore` flag of the file. -/
structure CritSecState where
  primask : Bool
  irestore : Nat
deriving DecidableEq, Repr

/-- `crit_sec_enter`: `irestore = (__get_PRIMASK() ? 0 : 1);
noInterrupts();` — record whether interrupts were enabled, then mask
them. -/
def crit_sec_enter (s : CritSecState) : CritSecState :=
  { irestore := if s.primask then 0 else 1, primask := true }

/-- `crit_sec_leave`: `if (irestore) interrupts();` — unmask interrupts
exactly when the static flag is non-zero; the flag itself is left
unchanged. -/
def crit_sec_leave (s : CritSecState) : CritSecState :=
  if s.irestore ≠ 0 then { s with primask := false } else s

/-- Projection of a receive-drain trace to the `canardRxAccept` calls it
contains, in order, each with the frame and timestamp it was given. -/
def acceptCalls (evs : List RxEvent) : List (CanardFrame × Nat) :=
  evs.filterMap fun e =>
    match e with
    | RxEvent.acceptCall f t => some (f, t)
    | _ => none

/-- Capture a sequence of frames through `Node::onCanFrameReceived`, the
first component of each pair being the value the time source returned
for that capture. -/
def captureAll (st : NodeState) (captures : List (Nat × CanardFrame)) :
    NodeState :=
  captures.foldl (fun s p => Node.onCanFrameReceived s p.1 p.2) st

/-- Whether a receive-drain event is a handler invocation. -/
def isTransferReceivedEvent : RxEvent → Bool
  | RxEvent.transferReceived _ _ => true
  | _ => false

/-- Whether a receive-drain event is a scratch-memory release. -/
def isMemoryFreedEvent : RxEvent → Bool
  | RxEvent.memoryFreed _ => true
  | _ => false

lemma copyPayload_length (cap : Nat) (src : List Nat) (n : Nat) :
    (copyPayload cap src n).length = cap := by
  unfold copyPayload
  simp only [List.length_append, List.length_take, List.length_replicate]
  omega

lemma mkRxQueueItem_rx_timestamp_us (m : Nat) (f : CanardFrame) (t : Nat) :
    (mkRxQueueItem m f t).rx_timestamp_us = t := by
  unfold mkRxQueueItem
  split <;> rfl

lemma mkRxQueueItem_payload_size (m : Nat) (f : CanardFrame) (t : Nat) :
    (mkRxQueueItem m f t).payload_size = f.payload_size := by
  unfold mkRxQueueItem
  split <;> rfl

lemma mkRxQueueItem_payload (m : Nat) (f : CanardFrame) (t : Nat) :
    (mkRxQueueItem m f t).payload
      = copyPayload (payloadCapacity m) f.payload f.payload_size := by
  unfold mkRxQueueItem payloadCapacity
  split <;> simp

lemma acceptCalls_append (l₁ l₂ : List RxEvent) :
    acceptCalls (l₁ ++ l₂) = acceptCalls l₁ ++ acceptCalls l₂ := by
  simp [acceptCalls]

lemma acceptCalls_processRxFrame (accept : CanardFrame → Nat → AcceptResult)
    (f : CanardFrame) (t : Nat) :
    acceptCalls (Node.processRxFrame accept f t) = [(f, t)] := by
  by_cases h : (accept f t).result = 1 <;>
    simp [Node.processRxFrame, h, acceptCalls]

lemma acceptCalls_go (accept : CanardFrame → Nat → AcceptResult)
    (items : List RxQueueItem) :
    acceptCalls (Node.processRxQueueGo accept items)
      = items.map fun it => (frameOfItem it, it.rx_timestamp_us) := by
  induction items with
  | nil => simp [Node.processRxQueueGo, acceptCalls]
  | cons it rest ih =>
      simp [Node.processRxQueueGo, acceptCalls_append,
        acceptCalls_processRxFrame, ih]

lemma onCanFrameReceived_enqueue_append (st : NodeState) (mv : Nat)
    (f : CanardFrame) (hlt : st.rx_queue.data.length < st.rx_queue.capacity) :
    (Node.onCanFrameReceived st mv f).rx_queue.data
      = st.rx_queue.data ++ [mkRxQueueItem st.mtu_bytes f mv] := by
  simp [Node.onCanFrameReceived, CircularBuffer.enqueue, hlt]

lemma captureAll_rx_data (captures : List (Nat × CanardFrame)) :
    ∀ st : NodeState,
    st.rx_queue.data.length + captures.length ≤ st.rx_queue.capacity →
    (captureAll st captures).rx_queue.data
      = st.rx_queue.data
          ++ captures.map (fun p => mkRxQueueItem st.mtu_bytes p.2 p.1) := by
  induction captures with
  | nil =>
      intro st _
      simp [captureAll]
  | cons p ps ih =>
      intro st h
      have hlt : st.rx_queue.data.length < st.rx_queue.capacity := by
        simp only [List.length_cons] at h
        omega
      have hstep : captureAll st (p :: ps)
          = captureAll (Node.onCanFrameReceived st p.1 p.2) ps := by
        simp [captureAll]
      have hdata := onCanFrameReceived_enqueue_append st p.1 p.2 hlt
      have hmtu : (Node.onCanFrameReceived st p.1 p.2).mtu_bytes
          = st.mtu_bytes := rfl
      have hcap : (Node.onCanFrameReceived st p.1 p.2).rx_queue.capacity
          = st.rx_queue.capacity := by
        simp [Node.onCanFrameReceived, CircularBuffer.enqueue, hlt]
      have h2 := ih (Node.onCanFrameReceived st p.1 p.2) (by
        rw [hdata, hcap]
        simp only [List.length_append, List.length_cons, List.length_nil] at h ⊢
        omega)
      rw [hstep, h2, hdata, hmtu]
      simp

/-- C5: for every sequence of frames enqueued via `onCanFrameReceived`
whose length does not exceed the receive-buffer capacity, the cooperative
drain of `processRxQueue` hands the frames to `canardRxAccept` in exactly
the capture (FIFO) order, each with its own capture timestamp. -/
theorem claim_C5 (st : NodeState) (captures : List (Nat × CanardFrame))
    (accept : CanardFrame → Nat → AcceptResult)
    (hempty : st.rx_queue.data = [])
    (hcap : captures.length ≤ st.rx_queue.capacity) :
    acceptCalls (Node.processRxQueueRun accept (captureAll st captures).rx_queue).2
      = captures.map
          (fun p => (frameOfItem (mkRxQueueItem st.mtu_bytes p.2 p.1), p.1)) := by
  have hdata := captureAll_rx_data captures st (by rw [hempty]; simpa)
  rw [hempty] at hdata
  simp only [List.nil_append] at hdata
  simp only [Node.processRxQueueRun, hdata, acceptCalls_go, List.map_map]
  refine List.map_congr_left ?_
  intro p _
  simp [mkRxQueueItem_rx_timestamp_us]

/-- Concrete inputs witnessing claim C5: an empty capacity-4 classic-MTU
node, two captured frames, and an accept operation that never completes
a transfer. -/
def stC5 : NodeState :=
  { mtu_bytes := 8
    node_id := 42
    rx_queue := { capacity := 4, data := [] }
    tx_queue := []
    canard_hdl := 0
    o1heap := 0 }

def frameC5a : CanardFrame :=
  { extended_can_id := 11, payload_size := 3, payload := [1, 2, 3] }

def frameC5b : CanardFrame :=
  { extended_can_id := 22, payload_size := 2, payload := [4, 5] }

def capsC5 : List (Nat × CanardFrame) := [(100, frameC5a), (200, frameC5b)]

def acceptC5 : CanardFrame → Nat → AcceptResult :=
  fun _ _ => { result := 0, transfer := { payload := 0 }, subscription := 0 }

/-- Witness for claim C5 at the concrete inputs above. -/
theorem claim_C5_witness :
    stC5.rx_queue.data = [] ∧
    capsC5.length ≤ stC5.rx_queue.capacity ∧
    acceptCalls (Node.processRxQueueRun acceptC5 (captureAll stC5 capsC5).rx_queue).2
      = capsC5.map
          (fun p => (frameOfItem (mkRxQueueItem stC5.mtu_bytes p.2 p.1), p.1)) :=
  ⟨rfl, by decide, claim_C5 stC5 capsC5 acceptC5 rfl (by decide)⟩

/-- C6: `spinSome` performs the complete receive drain first (the receive
buffer is empty afterwards and every buffered record leads to exactly one
`canardRxAccept` call) and the transmit drain second: the trace is the
receive-phase events followed by the transmit-phase events, so no
transmit-queue item is processed before the receive buffer is fully
drained. -/
theorem claim_C6 (accept : CanardFrame → Nat → AcceptResult)
    (tx_func : CanardFrame → Bool) (now : Nat) (st : NodeState) :
    (Node.spinSome accept tx_func now st).1.rx_queue.data = [] ∧
    (Node.spinSome accept tx_func now st).2
      = (Node.processRxQueueGo accept st.rx_queue.data).map Event.rx
          ++ (Node.processTxQueue tx_func now st.tx_queue).2.map Event.tx ∧
    (acceptCalls (Node.processRxQueueGo accept st.rx_queue.data)).length
      = st.rx_queue.data.length := by
  refine ⟨rfl, rfl, ?_⟩
  rw [acceptCalls_go]
  simp

/-- C7: `enqueue_transfer` hands the engine the absolute deadline
`now + tx_timeout_usec` read from the injected time source, and returns
`false` exactly when `canardTxPush` reports a negative status. -/
theorem claim_C7 (push : Nat → Int) (micros_val tx_timeout_usec : Nat) :
    (Node.enqueue_transfer push micros_val tx_timeout_usec).2
      = micros_val + tx_timeout_usec ∧
    (Node.enqueue_transfer push micros_val tx_timeout_usec).1
      = !decide (push (micros_val + tx_timeout_usec) < 0) := by
  refine ⟨rfl, ?_⟩
  simp only [Node.enqueue_transfer, ← decide_not, Int.not_lt]

/-- C8: `onCanFrameReceived` performs exactly one enqueue into the
bounded receive buffer — of the record carrying the frame's identifier,
its original length, the payload truncated to the variant's fixed
capacity, and the timestamp read from the injected time source — and
leaves every other component of the node state unchanged. -/
theorem claim_C8 (st : NodeState) (micros_val : Nat) (frame : CanardFrame) :
    (Node.onCanFrameReceived st micros_val frame).rx_queue
      = st.rx_queue.enqueue (mkRxQueueItem st.mtu_bytes frame micros_val) ∧
    (Node.onCanFrameReceived st micros_val frame).tx_queue = st.tx_queue ∧
    (Node.onCanFrameReceived st micros_val frame).canard_hdl = st.canard_hdl ∧
    (Node.onCanFrameReceived st micros_val frame).o1heap = st.o1heap ∧
    (Node.onCanFrameReceived st micros_val frame).mtu_bytes = st.mtu_bytes ∧
    (Node.onCanFrameReceived st micros_val frame).node_id = st.node_id ∧
    (mkRxQueueItem st.mtu_bytes frame micros_val).extended_can_id
      = frame.extended_can_id ∧
    (mkRxQueueItem st.mtu_bytes frame micros_val).payload_size
      = frame.payload_size ∧
    (mkRxQueueItem st.mtu_bytes frame micros_val).rx_timestamp_us
      = micros_val ∧
    (mkRxQueueItem st.mtu_bytes frame micros_val).payload
      = copyPayload (payloadCapacity st.mtu_bytes) frame.payload
          frame.payload_size := by
  refine ⟨rfl, rfl, rfl, rfl, rfl, rfl, ?_, ?_, ?_, ?_⟩
  · unfold mkRxQueueItem
    split <;> rfl
  · exact mkRxQueueItem_payload_size st.mtu_bytes frame micros_val
  · exact mkRxQueueItem_rx_timestamp_us st.mtu_bytes frame micros_val
  · exact mkRxQueueItem_payload st.mtu_bytes frame micros_val

/-- C9: a captured frame whose declared `payload_size` exceeds the
variant's fixed payload capacity is stored with the original untruncated
`payload_size` while the backing array holds only capacity-many bytes,
so the `CanardFrame` later rebuilt for `canardRxAccept` reports a
`payload_size` strictly larger than its backing payload array. -/
theorem claim_C9 (mtu_bytes : Nat) (frame : CanardFrame) (micros_val : Nat)
    (h : payloadCapacity mtu_bytes < frame.payload_size) :
    (mkRxQueueItem mtu_bytes frame micros_val).payload_size
      = frame.payload_size ∧
    (mkRxQueueItem mtu_bytes frame micros_val).payload.length
      = payloadCapacity mtu_bytes ∧
    (frameOfItem (mkRxQueueItem mtu_bytes frame micros_val)).payload.length
      < (frameOfItem (mkRxQueueItem mtu_bytes frame micros_val)).payload_size := by
  have hsize := mkRxQueueItem_payload_size mtu_bytes frame micros_val
  have hlen : (mkRxQueueItem mtu_bytes frame micros_val).payload.length
      = payloadCapacity mtu_bytes := by
    rw [mkRxQueueItem_payload, copyPayload_length]
  refine ⟨hsize, hlen, ?_⟩
  simp only [frameOfItem, hsize, hlen]
  exact h

/-- Concrete input witnessing claim C9: a classic-MTU node capturing a
12-byte frame (capacity is 8). -/
def frameC9 : CanardFrame :=
  { extended_can_id := 5
    payload_size := 12
    payload := [1, 2, 3, 4, 5, 6, 7, 8, 9, 10, 11, 12] }

/-- Witness for claim C9 at the concrete input above. -/
theorem claim_C9_witness :
    payloadCapacity 8 < frameC9.payload_size ∧
    ((mkRxQueueItem 8 frameC9 77).payload_size = frameC9.payload_size ∧
     (mkRxQueueItem 8 frameC9 77).payload.length = payloadCapacity 8 ∧
     (frameOfItem (mkRxQueueItem 8 frameC9 77)).payload.length
       < (frameOfItem (mkRxQueueItem 8 frameC9 77)).payload_size) :=
  ⟨by decide, claim_C9 8 frameC9 77 (by decide)⟩

/-- C4: for every frame handed to `processRxFrame`, when `canardRxAccept`
reports a completed transfer (status `1`) the handler is invoked exactly
once and the scratch memory is released exactly once — every handler
invocation carries the accepted transfer and every release frees that
transfer's payload — and when the status is anything else no handler is
invoked and no release occurs. -/
theorem claim_C4 (accept : CanardFrame → Nat → AcceptResult)
    (frame : CanardFrame) (ts : Nat) :
    ((Node.processRxFrame accept frame ts).countP isTransferReceivedEvent
      = if (accept frame ts).result = 1 then 1 else 0) ∧
    ((Node.processRxFrame accept frame ts).countP isMemoryFreedEvent
      = if (accept frame ts).result = 1 then 1 else 0) ∧
    ((Node.processRxFrame accept frame ts).countP
        (fun e => decide (e = RxEvent.transferReceived
          (accept frame ts).subscription (accept frame ts).transfer))
      = (Node.processRxFrame accept frame ts).countP isTransferReceivedEvent) ∧
    ((Node.processRxFrame accept frame ts).countP
        (fun e => decide (e = RxEvent.memoryFreed
          (accept frame ts).transfer.payload))
      = (Node.processRxFrame accept frame ts).countP isMemoryFreedEvent) := by
  by_cases h : (accept frame ts).result = 1 <;>
    simp [Node.processRxFrame, h, List.countP_cons, List.countP_nil,
      isTransferReceivedEvent, isMemoryFreedEvent]

/-- C10: `crit_sec_leave` unmasks interrupts exactly when the static flag
is non-zero, the flag a `crit_sec_enter` writes records whether
interrupts were enabled at that moment, so a non-nested enter/leave pair
restores the prior interrupt-enable state, while the nested sequence
enter; enter; leave; leave started with interrupts enabled ends with
interrupts still masked. -/
theorem claim_C10 :
    (∀ s : CritSecState,
      (crit_sec_leave s).primask = (decide (s.irestore = 0) && s.primask)) ∧
    (∀ s : CritSecState,
      (crit_sec_enter s).irestore = if s.primask then 0 else 1) ∧
    (∀ s : CritSecState,
      (crit_sec_leave (crit_sec_enter s)).primask = s.primask) ∧
    (crit_sec_leave (crit_sec_leave (crit_sec_enter (crit_sec_enter
        { primask := false, irestore := 0 })))).primask = true := by
  refine ⟨?_, ?_, ?_, rfl⟩
  · intro s
    by_cases h : s.irestore = 0 <;> simp [crit_sec_leave, h]
  · intro s
    rfl
  · intro s
    cases hp : s.primask <;>
      simp [crit_sec_enter, crit_sec_leave, hp]

/-- Concrete transmit-queue item for claim C1: deadline 100 µs. -/
def frameC1 : CanardFrame :=
  { extended_can_id := 7, payload_size := 1, payload := [42] }

def itemC1 : CanardTxQueueItem := { tx_deadline_usec := 100, frame := frameC1 }

/-- C1 (code bug): `Node::processTxQueue` tests
`tx_deadline_usec > _micros_func()` for the discard branch, which is the
inverse of the claim and of the code's own comment. At time 200 the
deadline 100 has already passed, yet the item is handed to the transmit
function (a `txCall` event occurs) rather than popped and discarded
without an attempt; at time 50 the deadline has not passed, yet the item
is popped and freed without the transmit function ever being invoked. -/
theorem claim_C1 :
    Node.processTxQueue (fun _ => true) 200 [itemC1]
      = ([], [TxEvent.txCall frameC1 true, TxEvent.popFreed itemC1]) ∧
    Node.processTxQueue (fun _ => true) 50 [itemC1]
      = ([], [TxEvent.popFreed itemC1]) := by
  constructor <;> rfl

/-- Concrete transmit-queue item for claim C3: deadline 100 µs. -/
def frameC3 : CanardFrame :=
  { extended_can_id := 9, payload_size := 2, payload := [1, 2] }

def itemC3 : CanardTxQueueItem := { tx_deadline_usec := 100, frame := frameC3 }

/-- C3 (code bug): with a transmit function that returns `false` for
every frame and an unexpired head item (deadline 100, current time 50),
`Node::processTxQueue` pops and frees the head without ever invoking the
transmit function (the trace holds no `txCall` event and the remaining
queue is empty, so nothing is left to retry on the next call), because
its inverted expiry test discards unexpired items; the claim requires
the head to stay queued and be retried. -/
theorem claim_C3 :
    Node.processTxQueue (fun _ => false) 50 [itemC3]
      = ([], [TxEvent.popFreed itemC3]) := by
  rfl

/-- C2 (code bug): the receive-buffer variant chosen by the `Node`
constructor is a function of the indeterminate pre-initialization value
of `_mtu_bytes` and does not depend on the `mtu_bytes` construction
argument at all: with pre-initialization value 0 the CAN-FD variant is
allocated even though the argument is the classic-CAN MTU, and for any
fixed pre-initialization value the selection is identical for all
argument values. -/
theorem claim_C2 :
    Node.rxQueueVariant 0 CANARD_MTU_CAN_CLASSIC = RxBufferVariant.canFd ∧
    (∀ uninit m m' : Nat,
      Node.rxQueueVariant uninit m = Node.rxQueueVariant uninit m') := by
  refine ⟨rfl, ?_⟩
  intro uninit m m'
  rfl
